import Mathlib

/-
Verification of `scripts/sync_to_gist.py`.

The pipeline is: resolve configuration from a `.env` file overlaid with the
process environment, parse review tasks out of a notes file with a fixed
regular expression, partition the tasks by due date against "today" and
"tomorrow" computed in UTC+9, serialize, and upsert a GitHub gist.

The embedding below translates each Python function into a Lean definition:
  - `load_env` / `get_env`   : the .env loader and the environment overlay;
  - `matchLine`              : the TASK_PATTERN regular expression, embedded as
                               a backtracking matcher that enumerates candidate
                               splits in the engine's priority order (greedy
                               pieces longest-first, the lazy body shortest
                               first) and keeps the first full match;
  - `parse_lines` / `parse_tasks_from_file` : the parsing loop;
  - `noteSub` / `deriveNote` : the note-extraction substitution;
  - `classifyLoop` / `classify_tasks`       : the date partition and the
                               emitted JSON object;
  - `ensure_gist`            : the gist create/update call, with the network
                               abstracted as a function from the issued call to
                               the HTTP response, `requests`'s
                               `raise_for_status` (raises exactly for status
                               codes in [400, 600)), and `resp.json()`
                               modelled as either raising on an unparseable
                               body or yielding the optional id field;
  - `main`                   : the entry point, instrumented with the list of
                               I/O effects it performs, in order.

File contents are modelled as `Option (List String)` (`none` = the file does
not exist, `some lines` = its lines).  Dates are modelled with the Gregorian
calendar arithmetic that Python's `datetime.date` + `timedelta(days=1)`
performs, and `isoformat` as the zero-padded `YYYY-MM-DD` rendering.
-/

set_option maxRecDepth 2048

/-- Python's whitespace class for `str` patterns (`\s`) and `str.strip()`:
ASCII whitespace, the C1 separators, and the Unicode space characters. -/
def pySpace (c : Char) : Bool :=
  c == ' ' || c == '\t' || c == '\n' || c == '\x0b' || c == '\x0c' || c == '\r' ||
  c == '\x1c' || c == '\x1d' || c == '\x1e' || c == '\x1f' || c == '\x85' ||
  c == '\xa0' || c == ' ' || c == ' ' || c == ' ' || c == ' ' ||
  c == ' ' || c == ' ' || c == ' ' || c == ' ' || c == ' ' ||
  c == ' ' || c == ' ' || c == ' ' || c == ' ' || c == ' ' ||
  c == ' ' || c == ' ' || c == '　'

/-- The characters matched by `.` in a Python pattern without DOTALL:
everything except a newline. -/
def notNL (c : Char) : Bool :=
  c != '\n'

/-- Python `str.strip()` on a character list: drop leading and trailing
whitespace. -/
def pyStripList (cs : List Char) : List Char :=
  ((cs.dropWhile pySpace).reverse.dropWhile pySpace).reverse

/-- Python `str.strip(c)` for a single character `c`: drop every leading and
trailing occurrence of `c`. -/
def stripCharEnds (c : Char) (cs : List Char) : List Char :=
  ((cs.dropWhile (· == c)).reverse.dropWhile (· == c)).reverse

/-- The decimal digit character for `n % 10`. -/
def digitChar (n : Nat) : Char :=
  Char.ofNat (48 + n % 10)

/-- The two-digit zero-padded rendering used by `%02d` for `n < 100`. -/
def pad2chars (n : Nat) : List Char :=
  [digitChar (n / 10), digitChar n]

/-- The four-digit zero-padded rendering used by `%04d` for `n < 10000`. -/
def pad4chars (n : Nat) : List Char :=
  [digitChar (n / 1000), digitChar (n / 100), digitChar (n / 10), digitChar n]

/-- A calendar date, as carried by Python's `datetime.date`. -/
structure Date where
  year : Nat
  month : Nat
  day : Nat
deriving DecidableEq, Repr

/-- Gregorian leap-year rule, as in Python's `calendar` / `datetime`. -/
def isLeap (y : Nat) : Bool :=
  (y % 4 == 0 && y % 100 != 0) || y % 400 == 0

/-- Number of days in a month of a given year. -/
def daysInMonth (y m : Nat) : Nat :=
  if m == 2 then (if isLeap y then 29 else 28)
  else if m == 4 || m == 6 || m == 9 || m == 11 then 30
  else 31

/-- Validity of a `Date`: the month and day ranges `datetime.date` enforces. -/
def Date.ValidB (d : Date) : Bool :=
  1 ≤ d.month && d.month ≤ 12 && 1 ≤ d.day && d.day ≤ daysInMonth d.year d.month

/-- The date one day later: Python's `date + timedelta(days=1)`. -/
def Date.nextDay (d : Date) : Date :=
  if d.day < daysInMonth d.year d.month then ⟨d.year, d.month, d.day + 1⟩
  else if d.month < 12 then ⟨d.year, d.month + 1, 1⟩
  else ⟨d.year + 1, 1, 1⟩

/-- Python's `date.isoformat()`: zero-padded `YYYY-MM-DD`. -/
def Date.isoformat (d : Date) : String :=
  String.mk (pad4chars d.year ++ '-' :: (pad2chars d.month ++ '-' :: pad2chars d.day))

theorem digitChar_eq_iff {a b : Nat} (h : digitChar a = digitChar b) :
    a % 10 = b % 10 := by
  have ha : a % 10 < 10 := Nat.mod_lt _ (by omega)
  have hb : b % 10 < 10 := Nat.mod_lt _ (by omega)
  have key : ∀ x < 10, ∀ y < 10, Char.ofNat (48 + x) = Char.ofNat (48 + y) → x = y := by
    decide
  exact key _ ha _ hb h

/-- The ISO strings of a valid date and of the next day always differ. -/
theorem isoformat_nextDay_ne (d : Date) (h : d.ValidB = true) :
    d.isoformat ≠ d.nextDay.isoformat := by
  have hm : 1 ≤ d.month ∧ d.month ≤ 12 ∧ 1 ≤ d.day ∧ d.day ≤ daysInMonth d.year d.month := by
    simp only [Date.ValidB, Bool.and_eq_true, decide_eq_true_eq] at h
    omega
  intro heq
  by_cases hd : d.day < daysInMonth d.year d.month
  · have hnext : d.nextDay = ⟨d.year, d.month, d.day + 1⟩ := by
      simp [Date.nextDay, hd]
    rw [hnext] at heq
    have hl := congrArg String.data heq
    simp only [Date.isoformat, pad4chars, pad2chars, List.cons_append,
      List.nil_append, List.cons.injEq] at hl
    have h10 : d.day % 10 = (d.day + 1) % 10 := digitChar_eq_iff hl.2.2.2.2.2.2.2.2.2.1
    omega
  · by_cases hm12 : d.month < 12
    · have hnext : d.nextDay = ⟨d.year, d.month + 1, 1⟩ := by
        simp [Date.nextDay, hd, hm12]
      rw [hnext] at heq
      have hl := congrArg String.data heq
      simp only [Date.isoformat, pad4chars, pad2chars, List.cons_append,
        List.nil_append, List.cons.injEq] at hl
      have h10 : d.month % 10 = (d.month + 1) % 10 := digitChar_eq_iff hl.2.2.2.2.2.2.1
      omega
    · have hmeq : d.month = 12 := by omega
      have hnext : d.nextDay = ⟨d.year + 1, 1, 1⟩ := by
        simp [Date.nextDay, hd, hm12]
      rw [hnext] at heq
      have hl := congrArg String.data heq
      simp only [Date.isoformat, pad4chars, pad2chars, List.cons_append,
        List.nil_append, List.cons.injEq] at hl
      have h10 : d.month / 10 % 10 = 1 / 10 % 10 := digitChar_eq_iff hl.2.2.2.2.2.1
      rw [hmeq] at h10
      omega

/-- A parsed review task, mirroring the `ReviewTask` dataclass. -/
structure ReviewTask where
  line : String
  note : Option String
  due_date : String
deriving DecidableEq, Repr

/-- Candidate splits for a greedy `p*` piece, in the order a backtracking
engine tries them: the longest run of `p`-characters first, down to the empty
match. -/
def starSplits (p : Char → Bool) (s : List Char) : List (List Char × List Char) :=
  (List.range ((s.takeWhile p).length + 1)).map
    (fun i => (s.take ((s.takeWhile p).length - i), s.drop ((s.takeWhile p).length - i)))

/-- Candidate splits for a lazy `p+?` piece, in the order a backtracking
engine tries them: one character first, extending up to the longest run of
`p`-characters. -/
def plusLazySplits (p : Char → Bool) (s : List Char) : List (List Char × List Char) :=
  (List.range (s.takeWhile p).length).map (fun i => (s.take (i + 1), s.drop (i + 1)))

/-- The `\d\x7b4\x7d-\d\x7b2\x7d-\d\x7b2\x7d` tail of TASK_PATTERN: ten
characters with digits in the date positions, returning the matched text and
the remainder. -/
def matchDate : List Char → Option (List Char × List Char)
  | a :: b :: c :: d :: '-' :: e :: f :: '-' :: g :: h :: rest =>
    if [a, b, c, d, e, f, g, h].all Char.isDigit then
      some ([a, b, c, d, '-', e, f, '-', g, h], rest)
    else none
  | _ => none

/-- TASK_PATTERN applied to one line with `re.match`: the literal `- [ ]`
prefix, greedy whitespace, the lazy one-or-more body, greedy whitespace, the
calendar marker, greedy whitespace, the date, greedy whitespace, end of line.
Returns the `body` and `date` groups of the match the engine finds. -/
def matchLine (raw : String) : Option (String × String) :=
  match raw.data with
  | '-' :: ' ' :: '[' :: ' ' :: ']' :: r0 =>
    (starSplits pySpace r0).findSome? (fun s1 =>
      (plusLazySplits notNL s1.2).findSome? (fun sb =>
        (starSplits pySpace sb.2).findSome? (fun s2 =>
          match s2.2 with
          | '📅' :: r4 =>
            (starSplits pySpace r4).findSome? (fun s3 =>
              match matchDate s3.2 with
              | some dd =>
                (starSplits pySpace dd.2).findSome? (fun s4 =>
                  if s4.2.isEmpty then some (String.mk sb.1, String.mk dd.1) else none)
              | none => none)
          | _ => none)))
  | _ => none

/-- The substitution `re.sub` of the leading note prefix: if the body starts
with the prefix word, the engine removes it together with the greedy
non-whitespace run and the greedy whitespace run that follow; otherwise the
body is unchanged. -/
def noteSub (body : List Char) : List Char :=
  match body with
  | '復' :: '習' :: r0 =>
    match (starSplits (fun c => !pySpace c) r0).findSome? (fun s1 =>
        (starSplits pySpace s1.2).findSome? (fun s2 => some s2.2)) with
    | some rest => rest
    | none => '復' :: '習' :: r0
  | _ => body

/-- The note derived from the (already stripped) body: the substitution
result, or `none` when it is empty, mirroring `tmp if tmp else None`. -/
def deriveNote (body : List Char) : Option String :=
  match noteSub body with
  | [] => none
  | tmp => some (String.mk tmp)

/-- The `ReviewTask` built for one matched line from the `body` and `date`
groups: the body is stripped, the note derived from it. -/
def taskOfMatch (raw body due : String) : ReviewTask :=
  { line := raw, note := deriveNote (pyStripList body.data), due_date := due }

/-- The parsing loop of `parse_tasks_from_file`: one task per matching line,
in input order; non-matching lines are skipped. -/
def parse_lines : List String → List ReviewTask
  | [] => []
  | raw :: rest =>
    match matchLine raw with
    | none => parse_lines rest
    | some bd => taskOfMatch raw bd.1 bd.2 :: parse_lines rest

/-- The function `parse_tasks_from_file`: FileNotFoundError when the file is missing,
otherwise the parsing loop over its lines. -/
def parse_tasks_from_file (reviewFile : Option (List String)) :
    Except String (List ReviewTask) :=
  match reviewFile with
  | none => .error "Review file not found"
  | some lines => .ok (parse_lines lines)

/-- The partitioning loop of `classify_tasks`: the three buckets
(today, tomorrow, others) by exact string comparison of `due_date`. -/
def classifyLoop (todayStr tomorrowStr : String) :
    List ReviewTask → List ReviewTask × List ReviewTask × List ReviewTask
  | [] => ([], [], [])
  | t :: ts =>
    let r := classifyLoop todayStr tomorrowStr ts
    if t.due_date = todayStr then (t :: r.1, r.2.1, r.2.2)
    else if t.due_date = tomorrowStr then (r.1, t :: r.2.1, r.2.2)
    else (r.1, r.2.1, t :: r.2.2)

/-- A JSON value, for the dictionary `classify_tasks` returns. -/
inductive JVal where
  | str (s : String)
  | null
  | arr (xs : List JVal)
  | obj (fields : List (String × JVal))
deriving Repr

/-- The keys of a JSON object. -/
def JVal.keys : JVal → List String
  | .obj fields => fields.map Prod.fst
  | _ => []

/-- Lookup of a key in a JSON object. -/
def JVal.lookup : JVal → String → Option JVal
  | .obj fields, k => fields.lookup k
  | _, _ => none

/-- Python `asdict` applied to a `ReviewTask`. -/
def taskToJ (t : ReviewTask) : JVal :=
  .obj [("line", .str t.line),
        ("note", match t.note with | some n => .str n | none => .null),
        ("due_date", .str t.due_date)]

/-- The function `classify_tasks`: partition the tasks against today's and tomorrow's ISO
strings and return the emitted dictionary.  The reference date and the
generation timestamp are injected (in the source both come from
`datetime.now` in UTC+9). -/
def classify_tasks (today : Date) (generatedAt : String)
    (tasks : List ReviewTask) : JVal :=
  let todayStr := today.isoformat
  let tomorrowStr := today.nextDay.isoformat
  let r := classifyLoop todayStr tomorrowStr tasks
  .obj [("today", .arr (r.1.map taskToJ)),
        ("tomorrow", .arr (r.2.1.map taskToJ)),
        ("meta", .obj [("generated_at", .str generatedAt),
                       ("today", .str todayStr),
                       ("tomorrow", .str tomorrowStr)])]

/-- One parsed line of the `.env` file: strip the line, skip blanks, comments
and lines without `=`, split at the first `=`, strip the key, and strip
whitespace then double quotes then single quotes off the value. -/
def parseEnvLine (raw : String) : Option (String × String) :=
  let line := pyStripList raw.data
  if line.isEmpty then none
  else if line.head? = some (Char.ofNat 35) then none
  else if line.contains (Char.ofNat 61) then
    some (String.mk (pyStripList (line.takeWhile (fun c => c != Char.ofNat 61))),
          String.mk (stripCharEnds (Char.ofNat 39)
            (stripCharEnds (Char.ofNat 34)
              (pyStripList ((line.dropWhile (fun c => c != Char.ofNat 61)).tail)))))
  else none

/-- Insertion into a Python-dict model: later insertions of the same key win. -/
def dinsert (d : String → Option String) (k v : String) : String → Option String :=
  fun x => if x = k then some v else d x

/-- The function `load_env`: an empty mapping when the file is missing, otherwise the
parsed `KEY=VALUE` lines inserted in order. -/
def load_env (envFile : Option (List String)) : String → Option String :=
  match envFile with
  | none => fun _ => none
  | some lines =>
    lines.foldl (fun d raw =>
      match parseEnvLine raw with
      | some kv => dinsert d kv.1 kv.2
      | none => d) (fun _ => none)

/-- The function `get_env`: the `.env` mapping with the process environment overlaid on
top, so environment entries win. -/
def get_env (envFile : Option (List String)) (osEnv : List (String × String)) :
    String → Option String :=
  osEnv.foldl (fun d kv => dinsert d kv.1 kv.2) (load_env envFile)

/-- The HTTP call `ensure_gist` issues: PATCH of an existing gist or POST of a
new one, carrying the serialized payload content. -/
inductive GistCall where
  | update (id : String) (content : JVal)
  | create (content : JVal)
deriving Repr

/-- The result of `resp.json()`: the body either is not valid JSON (the call
raises `JSONDecodeError`) or parses to an object that carries the `id` field
or not. -/
inductive JsonBody where
  | invalid
  | parsed (id? : Option String)
deriving DecidableEq, Repr

/-- The observable part of the HTTP response: the status code, the body text,
and what `resp.json()` yields on the body. -/
structure HttpResponse where
  status : Nat
  body : String
  json : JsonBody
deriving DecidableEq, Repr

/-- Failure conditions of the publisher. -/
inductive GistError where
  | remoteRejected (status : Nat) (body : String)
  | jsonDecodeError
  | missingId
deriving DecidableEq, Repr

/-- Python truthiness on the optional gist id, as tested by `if gist_id:`. -/
def gistTruthy : Option String → Bool
  | some s => s ≠ ""
  | none => false

/-- The call `ensure_gist` issues for a given optional gist id. -/
def gistCallOf (gist_id : Option String) (content : JVal) : GistCall :=
  match gist_id with
  | some s => if s = "" then .create content else .update s content
  | none => .create content

/-- The library call `requests.Response.raise_for_status`: raises `HTTPError` exactly for
status codes in the client-error and server-error ranges [400, 600). -/
def raise_for_status (r : HttpResponse) : Except GistError Unit :=
  if 400 ≤ r.status ∧ r.status < 600 then .error (.remoteRejected r.status r.body)
  else .ok ()

/-- The function `ensure_gist`: issue the update or create call, fail on a
rejected status, then parse the body with `data = resp.json()` (failing when
the body is not valid JSON), and return `data.get("id", gist_id)` in the
update branch and `data["id"]` (a KeyError when absent) in the create branch.
The network is abstracted as the function from the issued call to its
response; the token only feeds the auth header and does not affect the
modelled result. -/
def ensure_gist (token : String) (gist_id : Option String) (content : JVal)
    (net : GistCall → HttpResponse) : Except GistError String :=
  let call := gistCallOf gist_id content
  let resp := net call
  match raise_for_status resp with
  | .error e => .error e
  | .ok _ =>
    match resp.json with
    | .invalid => .error .jsonDecodeError
    | .parsed id? =>
      match call with
      | .update i _ => .ok (id?.getD i)
      | .create _ =>
        match id? with
        | some i => .ok i
        | none => .error .missingId

/-- Python's `x or None` on the optional `REVIEW_GIST_ID` value: `None` and
the empty string both resolve to `None`. -/
def resolveGistId : Option String → Option String
  | some s => if s = "" then none else some s
  | none => none

/-- The I/O steps `main` can perform after settings/environment resolution. -/
inductive Effect where
  | readSettings
  | readNotes
  | netCall (c : GistCall)
deriving Repr

/-- The fatal conditions of a run. -/
inductive MainError where
  | configError (msg : String)
  | fileNotFound (msg : String)
  | gistError (e : GistError)
deriving DecidableEq, Repr

/-- The inputs of one run: the settings file, the process environment, the
notes file (content of the path resolved from `VAULT_PATH` and
`REVIEW_FILE_PATH`), the UTC+9 reference date and generation timestamp, and
the remote side of the network. -/
structure World where
  envFile : Option (List String)
  osEnv : List (String × String)
  reviewFile : Option (List String)
  today : Date
  generatedAt : String
  net : GistCall → HttpResponse

/-- The entry point `main`: resolve the configuration, fail fast when the token is absent or
empty, parse, classify, publish, and report the gist id.  The first component
lists the I/O effects performed, in order; the second is the printed gist id
or the error the run dies with. -/
def mainRun (w : World) : List Effect × Except MainError String :=
  let env := get_env w.envFile w.osEnv
  match env "GITHUB_GIST_TOKEN" with
  | none => ([.readSettings],
      .error (.configError "GITHUB_GIST_TOKEN is not set in .env or environment"))
  | some tok =>
    if tok = "" then ([.readSettings],
      .error (.configError "GITHUB_GIST_TOKEN is not set in .env or environment"))
    else
      let gist_id := resolveGistId (env "REVIEW_GIST_ID")
      match parse_tasks_from_file w.reviewFile with
      | .error e => ([.readSettings, .readNotes], .error (.fileNotFound e))
      | .ok tasks =>
        let content := classify_tasks w.today w.generatedAt tasks
        match ensure_gist tok gist_id content w.net with
        | .error e =>
          ([.readSettings, .readNotes, .netCall (gistCallOf gist_id content)],
           .error (.gistError e))
        | .ok i =>
          ([.readSettings, .readNotes, .netCall (gistCallOf gist_id content)],
           .ok i)

/-- A sample task with a given line and due date, for concrete instances. -/
def sampleTask (l d : String) : ReviewTask :=
  { line := l, note := none, due_date := d }

theorem classifyLoop_fst (ts tm : String) (l : List ReviewTask) :
    (classifyLoop ts tm l).1 = l.filter (fun t => t.due_date == ts) := by
  induction l with
  | nil => rfl
  | cons t rest ih =>
    simp only [classifyLoop]
    by_cases h1 : t.due_date = ts
    · rw [if_pos h1]
      simp [List.filter_cons, h1, ih]
    · rw [if_neg h1]
      by_cases h2 : t.due_date = tm
      · rw [if_pos h2]
        simp [List.filter_cons, h1, ih]
      · rw [if_neg h2]
        simp [List.filter_cons, h1, ih]

theorem classifyLoop_snd (ts tm : String) (l : List ReviewTask) :
    (classifyLoop ts tm l).2.1 =
      l.filter (fun t => !(t.due_date == ts) && t.due_date == tm) := by
  induction l with
  | nil => rfl
  | cons t rest ih =>
    simp only [classifyLoop]
    by_cases h1 : t.due_date = ts
    · rw [if_pos h1]
      simp [List.filter_cons, h1, ih]
    · rw [if_neg h1]
      by_cases h2 : t.due_date = tm
      · rw [if_pos h2]
        have hne : ¬ tm = ts := fun he => h1 (h2.trans he)
        simp [List.filter_cons, h1, h2, hne, ih]
      · rw [if_neg h2]
        simp [List.filter_cons, h1, h2, ih]

theorem classifyLoop_thd (ts tm : String) (l : List ReviewTask) :
    (classifyLoop ts tm l).2.2 =
      l.filter (fun t => !(t.due_date == ts) && !(t.due_date == tm)) := by
  induction l with
  | nil => rfl
  | cons t rest ih =>
    simp only [classifyLoop]
    by_cases h1 : t.due_date = ts
    · rw [if_pos h1]
      simp [List.filter_cons, h1, ih]
    · rw [if_neg h1]
      by_cases h2 : t.due_date = tm
      · rw [if_pos h2]
        simp [List.filter_cons, h1, h2, ih]
      · rw [if_neg h2]
        simp [List.filter_cons, h1, h2, ih]

theorem classifyLoop_perm (ts tm : String) (l : List ReviewTask) :
    ((classifyLoop ts tm l).1 ++ (classifyLoop ts tm l).2.1 ++
      (classifyLoop ts tm l).2.2).Perm l := by
  induction l with
  | nil => simp [classifyLoop]
  | cons t rest ih =>
    simp only [classifyLoop]
    by_cases h1 : t.due_date = ts
    · rw [if_pos h1]
      simpa using ih.cons t
    · rw [if_neg h1]
      by_cases h2 : t.due_date = tm
      · rw [if_pos h2]
        refine List.Perm.trans ?_ (ih.cons t)
        simp only [List.append_assoc, List.cons_append]
        exact List.perm_middle
      · rw [if_neg h2]
        refine List.Perm.trans ?_ (ih.cons t)
        simp only [List.append_assoc]
        exact (List.Perm.append_left _ List.perm_middle).trans List.perm_middle

/-- C1: for every task list and a reference date pair computed as a valid
today and the day after, the classification loop is a total partition: the
three buckets together contain every task exactly once, a task lands in
`today` iff its due_date equals the today string, in `tomorrow` iff it equals
the tomorrow string, and in `others` otherwise. -/
theorem classification_total_partition (today : Date) (tasks : List ReviewTask)
    (b1 b2 b3 : List ReviewTask)
    (hvalid : today.ValidB = true)
    (hb : classifyLoop today.isoformat today.nextDay.isoformat tasks = (b1, b2, b3)) :
    (b1 ++ b2 ++ b3).Perm tasks ∧
    ∀ t ∈ tasks,
      (t ∈ b1 ↔ t.due_date = today.isoformat) ∧
      (t ∈ b2 ↔ t.due_date = today.nextDay.isoformat) ∧
      (t ∈ b3 ↔ (t.due_date ≠ today.isoformat ∧ t.due_date ≠ today.nextDay.isoformat)) ∧
      ((t ∈ b1 ∧ t ∉ b2 ∧ t ∉ b3) ∨ (t ∉ b1 ∧ t ∈ b2 ∧ t ∉ b3) ∨
        (t ∉ b1 ∧ t ∉ b2 ∧ t ∈ b3)) := by
  have hne : today.isoformat ≠ today.nextDay.isoformat :=
    isoformat_nextDay_ne today hvalid
  have e1 : (classifyLoop today.isoformat today.nextDay.isoformat tasks).1 = b1 :=
    congrArg Prod.fst hb
  have e2 : (classifyLoop today.isoformat today.nextDay.isoformat tasks).2.1 = b2 :=
    congrArg (fun p => p.2.1) hb
  have e3 : (classifyLoop today.isoformat today.nextDay.isoformat tasks).2.2 = b3 :=
    congrArg (fun p => p.2.2) hb
  subst e1 e2 e3
  refine ⟨classifyLoop_perm _ _ tasks, fun t ht => ?_⟩
  have m1 : t ∈ (classifyLoop today.isoformat today.nextDay.isoformat tasks).1 ↔
      t.due_date = today.isoformat := by
    rw [classifyLoop_fst]
    simp [List.mem_filter, ht]
  have m2 : t ∈ (classifyLoop today.isoformat today.nextDay.isoformat tasks).2.1 ↔
      t.due_date = today.nextDay.isoformat := by
    rw [classifyLoop_snd]
    simp only [List.mem_filter, ht, true_and, Bool.and_eq_true, Bool.not_eq_true',
      beq_eq_false_iff_ne, beq_iff_eq, ne_eq]
    exact ⟨fun h => h.2, fun h => ⟨fun he => hne (he.symm.trans h), h⟩⟩
  have m3 : t ∈ (classifyLoop today.isoformat today.nextDay.isoformat tasks).2.2 ↔
      (t.due_date ≠ today.isoformat ∧ t.due_date ≠ today.nextDay.isoformat) := by
    rw [classifyLoop_thd]
    simp [List.mem_filter, ht]
  refine ⟨m1, m2, m3, ?_⟩
  by_cases c1 : t.due_date = today.isoformat
  · exact Or.inl ⟨m1.mpr c1, fun hm => hne (c1.symm.trans (m2.mp hm)),
      fun hm => (m3.mp hm).1 c1⟩
  · by_cases c2 : t.due_date = today.nextDay.isoformat
    · exact Or.inr (Or.inl ⟨fun hm => c1 (m1.mp hm), m2.mpr c2, fun hm => (m3.mp hm).2 c2⟩)
    · exact Or.inr (Or.inr ⟨fun hm => c1 (m1.mp hm), fun hm => c2 (m2.mp hm),
        m3.mpr ⟨c1, c2⟩⟩)

/-- Witness for C1 at the reference date 2025-06-01 with one task per bucket. -/
theorem classification_total_partition_witness :
    (Date.ValidB ⟨2025, 6, 1⟩ = true ∧
      classifyLoop (Date.isoformat ⟨2025, 6, 1⟩) (Date.isoformat (Date.nextDay ⟨2025, 6, 1⟩))
        [sampleTask "l1" "2025-06-01", sampleTask "l2" "2025-06-02", sampleTask "l3" "2025-07-01"] =
        ([sampleTask "l1" "2025-06-01"], [sampleTask "l2" "2025-06-02"], [sampleTask "l3" "2025-07-01"])) ∧
    (([sampleTask "l1" "2025-06-01"] ++ [sampleTask "l2" "2025-06-02"] ++
        [sampleTask "l3" "2025-07-01"]).Perm
      [sampleTask "l1" "2025-06-01", sampleTask "l2" "2025-06-02", sampleTask "l3" "2025-07-01"] ∧
    ∀ t ∈ [sampleTask "l1" "2025-06-01", sampleTask "l2" "2025-06-02", sampleTask "l3" "2025-07-01"],
      (t ∈ [sampleTask "l1" "2025-06-01"] ↔ t.due_date = Date.isoformat ⟨2025, 6, 1⟩) ∧
      (t ∈ [sampleTask "l2" "2025-06-02"] ↔
        t.due_date = Date.isoformat (Date.nextDay ⟨2025, 6, 1⟩)) ∧
      (t ∈ [sampleTask "l3" "2025-07-01"] ↔
        (t.due_date ≠ Date.isoformat ⟨2025, 6, 1⟩ ∧
         t.due_date ≠ Date.isoformat (Date.nextDay ⟨2025, 6, 1⟩))) ∧
      ((t ∈ [sampleTask "l1" "2025-06-01"] ∧ t ∉ [sampleTask "l2" "2025-06-02"] ∧
          t ∉ [sampleTask "l3" "2025-07-01"]) ∨
       (t ∉ [sampleTask "l1" "2025-06-01"] ∧ t ∈ [sampleTask "l2" "2025-06-02"] ∧
          t ∉ [sampleTask "l3" "2025-07-01"]) ∨
       (t ∉ [sampleTask "l1" "2025-06-01"] ∧ t ∉ [sampleTask "l2" "2025-06-02"] ∧
          t ∈ [sampleTask "l3" "2025-07-01"]))) :=
  ⟨⟨by decide, by decide⟩,
    classification_total_partition ⟨2025, 6, 1⟩
      [sampleTask "l1" "2025-06-01", sampleTask "l2" "2025-06-02", sampleTask "l3" "2025-07-01"]
      [sampleTask "l1" "2025-06-01"] [sampleTask "l2" "2025-06-02"] [sampleTask "l3" "2025-07-01"]
      (by decide) (by decide)⟩

theorem takeWhile_take_length (p : Char → Bool) (s : List Char) :
    s.take ((s.takeWhile p).length) = s.takeWhile p := by
  induction s with
  | nil => rfl
  | cons c cs ih =>
    by_cases h : p c
    · simp [List.takeWhile_cons, h, ih]
    · simp [List.takeWhile_cons, h]

theorem dropWhile_drop_length (p : Char → Bool) (s : List Char) :
    s.drop ((s.takeWhile p).length) = s.dropWhile p := by
  induction s with
  | nil => rfl
  | cons c cs ih =>
    by_cases h : p c
    · simp [List.takeWhile_cons, List.dropWhile_cons, h, ih]
    · simp [List.takeWhile_cons, List.dropWhile_cons, h]

/-- The first candidate a greedy star piece offers is the maximal run; if the
continuation succeeds there, the whole piece succeeds with that split. -/
theorem findSome?_starSplits {α : Type} (p : Char → Bool) (s : List Char)
    (f : List Char × List Char → Option α) (b : α)
    (hf : f (s.takeWhile p, s.dropWhile p) = some b) :
    (starSplits p s).findSome? f = some b := by
  unfold starSplits
  rw [List.range_succ_eq_map]
  simp only [List.map_cons, List.findSome?_cons, Nat.sub_zero]
  rw [takeWhile_take_length, dropWhile_drop_length, hf]

/-- C2: the parser fails (with the not-found condition) exactly when the file
is missing; on an existing file it always succeeds, returning one task per
line matched by TASK_PATTERN, in input order, and no task for a non-matching
line: the lines of the returned tasks are precisely the matching input lines
in order. -/
theorem parse_tasks_total_ordered :
    (∀ fs : Option (List String),
      ((∃ e, parse_tasks_from_file fs = .error e) ↔ fs = none)) ∧
    (∀ lines : List String,
      parse_tasks_from_file (some lines) = .ok (parse_lines lines) ∧
      (parse_lines lines).map ReviewTask.line =
        lines.filter (fun l => (matchLine l).isSome)) := by
  constructor
  · intro fs
    cases fs with
    | none => simp [parse_tasks_from_file]
    | some lines => simp [parse_tasks_from_file]
  · intro lines
    refine ⟨rfl, ?_⟩
    induction lines with
    | nil => rfl
    | cons raw rest ih =>
      cases hm : matchLine raw with
      | none => simp [parse_lines, hm, List.filter_cons, ih]
      | some bd => simp [parse_lines, hm, List.filter_cons, taskOfMatch, ih]

/-- C3: for a body starting with the prefix word, the derived note is the
body with the word, the greedy non-whitespace run after it, and the greedy
whitespace run after that removed; for a body not starting with the prefix
the note is the body unchanged; an empty remainder yields no note.  The task
built for a matched line derives its note from the stripped body group. -/
theorem derived_note_drops_marker :
    (∀ r0 : List Char,
      deriveNote ('復' :: '習' :: r0) =
        (if (r0.dropWhile (fun c => !pySpace c)).dropWhile pySpace = [] then none
         else some (String.mk ((r0.dropWhile (fun c => !pySpace c)).dropWhile pySpace)))) ∧
    (∀ body : List Char, body.take 2 ≠ ['復', '習'] →
      deriveNote body = if body = [] then none else some (String.mk body)) ∧
    (∀ raw b due : String, taskOfMatch raw b due =
      { line := raw, note := deriveNote (pyStripList b.data), due_date := due }) := by
  refine ⟨fun r0 => ?_, fun body hb => ?_, fun raw b due => rfl⟩
  · have hinner : (starSplits (fun c => !pySpace c) r0).findSome?
        (fun s1 => (starSplits pySpace s1.2).findSome? (fun s2 => some s2.2)) =
        some ((r0.dropWhile (fun c => !pySpace c)).dropWhile pySpace) := by
      apply findSome?_starSplits
      exact findSome?_starSplits pySpace (r0.dropWhile (fun c => !pySpace c)) _ _ rfl
    have h : noteSub ('復' :: '習' :: r0) =
        (r0.dropWhile (fun c => !pySpace c)).dropWhile pySpace := by
      have hred : noteSub ('復' :: '習' :: r0) =
          (match (starSplits (fun c => !pySpace c) r0).findSome? (fun s1 =>
              (starSplits pySpace s1.2).findSome? (fun s2 => some s2.2)) with
           | some rest => rest
           | none => '復' :: '習' :: r0) := rfl
      rw [hred, hinner]
    unfold deriveNote
    rw [h]
    cases hc : (r0.dropWhile (fun c => !pySpace c)).dropWhile pySpace with
    | nil => simp
    | cons a l => simp
  · have h : noteSub body = body := by
      rw [noteSub.eq_def]
      split
      · rename_i r0 
        simp at hb
      · rfl
    unfold deriveNote
    rw [h]
    cases body with
    | nil => simp
    | cons a l => simp

/-- Witness for C3: a prefixed body and a plain body. -/
theorem derived_note_drops_marker_witness :
    (deriveNote ('復' :: '習' :: "① Linked Lists".data) =
      (if ("① Linked Lists".data.dropWhile (fun c => !pySpace c)).dropWhile pySpace = [] then none
       else some (String.mk
        (("① Linked Lists".data.dropWhile (fun c => !pySpace c)).dropWhile pySpace)))) ∧
    ("Plain note".data.take 2 ≠ ['復', '習'] ∧
      deriveNote "Plain note".data =
        (if "Plain note".data = [] then none else some (String.mk "Plain note".data))) :=
  ⟨derived_note_drops_marker.1 "① Linked Lists".data,
   by decide,
   derived_note_drops_marker.2.1 "Plain note".data (by decide)⟩

/-- C4: the emitted dictionary has exactly the keys today, tomorrow and meta;
the others bucket is computed but never emitted; meta carries the generation
timestamp and the two literal date strings used for the comparison; the two
emitted buckets are the first two buckets of the partition. -/
theorem output_keys_today_tomorrow_meta (today : Date) (generatedAt : String)
    (tasks : List ReviewTask) :
    (classify_tasks today generatedAt tasks).keys = ["today", "tomorrow", "meta"] ∧
    "others" ∉ (classify_tasks today generatedAt tasks).keys ∧
    (classify_tasks today generatedAt tasks).lookup "others" = none ∧
    (classify_tasks today generatedAt tasks).lookup "meta" =
      some (.obj [("generated_at", .str generatedAt),
                  ("today", .str today.isoformat),
                  ("tomorrow", .str today.nextDay.isoformat)]) ∧
    (classify_tasks today generatedAt tasks).lookup "today" =
      some (.arr ((classifyLoop today.isoformat today.nextDay.isoformat tasks).1.map taskToJ)) ∧
    (classify_tasks today generatedAt tasks).lookup "tomorrow" =
      some (.arr ((classifyLoop today.isoformat today.nextDay.isoformat tasks).2.1.map taskToJ)) := by
  refine ⟨rfl, by simp [classify_tasks, JVal.keys], rfl, rfl, rfl, rfl⟩

/-- The `YYYY-MM-DD` digit shape: ten characters, digits except for dashes in
positions five and eight. -/
def digitShape (s : String) : Bool :=
  match s.data with
  | [a, b, c, d, e, f, g, h, i, j] =>
    e == '-' && h == '-' && [a, b, c, d, f, g, i, j].all Char.isDigit
  | _ => false

/-- Whether a string is a `YYYY-MM-DD` rendering of a real calendar date. -/
def isValidIsoDate (s : String) : Bool :=
  match s.data with
  | [a, b, c, d, e, f, g, h, i, j] =>
    e == '-' && h == '-' && ([a, b, c, d, f, g, i, j].all Char.isDigit) &&
      Date.ValidB
        ⟨(a.toNat - 48) * 1000 + (b.toNat - 48) * 100 + (c.toNat - 48) * 10 + (d.toNat - 48),
         (f.toNat - 48) * 10 + (g.toNat - 48),
         (i.toNat - 48) * 10 + (j.toNat - 48)⟩
  | _ => false

theorem of_findSome?_eq_some {α β : Type} {f : α → Option β} {l : List α} {b : β}
    (h : l.findSome? f = some b) : ∃ a, f a = some b := by
  rw [List.findSome?_eq_some_iff] at h
  obtain ⟨l₁, a, l₂, _, hfa, _⟩ := h
  exact ⟨a, hfa⟩

theorem matchDate_shape (r ds rest : List Char)
    (h : matchDate r = some (ds, rest)) : digitShape (String.mk ds) = true := by
  rw [matchDate.eq_def] at h
  split at h
  · rename_i a b c d e f g hh r2
    split at h
    · rename_i hdig
      injection h with h1
      have hds : [a, b, c, d, '-', e, f, '-', g, hh] = ds := congrArg Prod.fst h1
      subst hds
      simp only [digitShape]
      simp only [List.all_eq_true] at hdig ⊢
      simp [hdig]
    · exact absurd h (by simp)
  · exact absurd h (by simp)

theorem matchLine_date_shape (raw : String) (b d : String)
    (h : matchLine raw = some (b, d)) : digitShape d = true := by
  rw [matchLine.eq_def] at h
  split at h
  · obtain ⟨s1, h⟩ := of_findSome?_eq_some h
    obtain ⟨sb, h⟩ := of_findSome?_eq_some h
    obtain ⟨s2, h⟩ := of_findSome?_eq_some h
    split at h
    · obtain ⟨s3, h⟩ := of_findSome?_eq_some h
      split at h
      · rename_i dd hdd
        obtain ⟨s4, h⟩ := of_findSome?_eq_some h
        split at h
        · injection h with h1
          have hd : String.mk dd.1 = d := congrArg Prod.snd h1
          rw [← hd]
          exact matchDate_shape s3.2 dd.1 dd.2 (by rw [hdd])
        · exact absurd h (by simp)
      · exact absurd h (by simp)
    · exact absurd h (by simp)
  · exact absurd h (by simp)

/-- C9 (amended): every task the parser returns has a due_date of the
`YYYY-MM-DD` digit shape enforced by TASK_PATTERN. -/
theorem parsed_due_date_digit_shape :
    ∀ (lines : List String) (t : ReviewTask), t ∈ parse_lines lines →
      digitShape t.due_date = true := by
  intro lines
  induction lines with
  | nil => intro t ht; simp [parse_lines] at ht
  | cons raw rest ih =>
    intro t ht
    cases hm : matchLine raw with
    | none =>
      simp only [parse_lines, hm] at ht
      exact ih t ht
    | some bd =>
      obtain ⟨bb, dd⟩ := bd
      simp only [parse_lines, hm] at ht
      cases List.mem_cons.mp ht with
      | inl he =>
        rw [he]
        exact matchLine_date_shape raw bb dd hm
      | inr he => exact ih t he

/-- Witness for C9 (amended) on a concrete accepted line. -/
theorem parsed_due_date_digit_shape_witness :
    ((⟨"- [ ] x 📅 2025-06-01", some "x", "2025-06-01"⟩ : ReviewTask) ∈
      parse_lines ["- [ ] x 📅 2025-06-01"]) ∧
    digitShape (ReviewTask.due_date ⟨"- [ ] x 📅 2025-06-01", some "x", "2025-06-01"⟩) = true :=
  ⟨by decide, parsed_due_date_digit_shape ["- [ ] x 📅 2025-06-01"] _ (by decide)⟩

/-- Counterexample to C9 as stated: the parser accepts `2025-13-45`, whose
month and day are not a real calendar date. -/
theorem parsed_due_date_not_calendar_date :
    parse_lines ["- [ ] x 📅 2025-13-45"] =
      [{ line := "- [ ] x 📅 2025-13-45", note := some "x", due_date := "2025-13-45" }] ∧
    isValidIsoDate "2025-13-45" = false :=
  ⟨by decide, by decide⟩

theorem ensure_gist_eval (tok : String) (gid : Option String) (content : JVal)
    (net : GistCall → HttpResponse) :
    ensure_gist tok gid content net =
      (match raise_for_status (net (gistCallOf gid content)) with
       | .error e => .error e
       | .ok _ =>
         match (net (gistCallOf gid content)).json with
         | .invalid => .error .jsonDecodeError
         | .parsed id? =>
           match gistCallOf gid content with
           | .update i _ => .ok (id?.getD i)
           | .create _ =>
             match id? with
             | some i => .ok i
             | none => .error .missingId) := rfl

/-- Counterexample to C6 as stated: on update the code returns the id carried
by the response (`data.get("id", gist_id)`), not the supplied identifier,
whenever the response reports a different id. -/
theorem update_returns_response_id_counterexample :
    ensure_gist "tok" (some "abc") (JVal.str "c")
      (fun _ => ⟨200, "", .parsed (some "xyz")⟩) = .ok "xyz" ∧
    "xyz" ≠ "abc" :=
  ⟨rfl, by decide⟩

theorem resolveGistId_some_ne_empty (v : Option String) (i : String)
    (h : resolveGistId v = some i) : i ≠ "" := by
  cases v with
  | none => simp [resolveGistId] at h
  | some s =>
    by_cases hs : s = ""
    · simp [resolveGistId, hs] at h
    · simp only [resolveGistId, if_neg hs, Option.some.injEq] at h
      exact fun he => hs (h.trans he)

/-- C6 (amended): with the gist id resolved as in `main` (empty or absent
becomes none), a supplied identifier produces an update call against it and
an absent one a create call; when the status is not rejected an unparseable
body fails the operation, and on success (a parsed body) the update branch
returns the id reported by the response, falling back to the supplied id when
the response has none, and the create branch returns the newly assigned id of
the response (failing if the parsed body carries none). -/
theorem dispatch_and_returned_id (v : Option String) (content : JVal)
    (tok : String) (net : GistCall → HttpResponse) :
    (∀ i, resolveGistId v = some i →
      gistCallOf (resolveGistId v) content = .update i content) ∧
    (resolveGistId v = none → gistCallOf (resolveGistId v) content = .create content) ∧
    (¬(400 ≤ (net (gistCallOf (resolveGistId v) content)).status ∧
        (net (gistCallOf (resolveGistId v) content)).status < 600) →
      ((net (gistCallOf (resolveGistId v) content)).json = .invalid →
        ensure_gist tok (resolveGistId v) content net = .error .jsonDecodeError) ∧
      (∀ idf, (net (gistCallOf (resolveGistId v) content)).json = .parsed idf →
        (∀ i, resolveGistId v = some i →
          ensure_gist tok (resolveGistId v) content net = .ok (idf.getD i)) ∧
        (resolveGistId v = none → ∀ j, idf = some j →
          ensure_gist tok (resolveGistId v) content net = .ok j) ∧
        (resolveGistId v = none → idf = none →
          ensure_gist tok (resolveGistId v) content net = .error .missingId))) := by
  have hupd : ∀ i, resolveGistId v = some i →
      gistCallOf (resolveGistId v) content = .update i content := by
    intro i hi
    rw [hi]
    simp [gistCallOf, resolveGistId_some_ne_empty v i hi]
  have hcre : resolveGistId v = none →
      gistCallOf (resolveGistId v) content = .create content := by
    intro h
    rw [h]
    rfl
  refine ⟨hupd, hcre, fun hs => ?_⟩
  have hok : raise_for_status (net (gistCallOf (resolveGistId v) content)) = .ok () := by
    simp only [raise_for_status, if_neg hs]
  refine ⟨fun hj => ?_,
    fun idf hj => ⟨fun i hi => ?_, fun h0 j hjd => ?_, fun h0 hjd => ?_⟩⟩
  · rw [ensure_gist_eval, hok, hj]
  · rw [ensure_gist_eval, hok, hj, hupd i hi]
  · rw [ensure_gist_eval, hok, hj, hcre h0, hjd]
  · rw [ensure_gist_eval, hok, hj, hcre h0, hjd]

/-- Witness for C6 (amended): a supplied id updates, an absent id creates,
and the update on a parsed 2xx body returns the response id (which echoes the
supplied one). -/
theorem dispatch_and_returned_id_witness :
    (gistCallOf (resolveGistId (some "abc")) (JVal.str "c") =
      .update "abc" (JVal.str "c")) ∧
    (gistCallOf (resolveGistId none) (JVal.str "c") = .create (JVal.str "c")) ∧
    ensure_gist "tok" (resolveGistId (some "abc")) (JVal.str "c")
      (fun _ => ⟨200, "", .parsed (some "abc")⟩) = .ok "abc" :=
  ⟨(dispatch_and_returned_id (some "abc") (JVal.str "c") "tok"
      (fun _ => ⟨200, "", .parsed (some "abc")⟩)).1 "abc" rfl,
   (dispatch_and_returned_id none (JVal.str "c") "tok"
      (fun _ => ⟨200, "", .parsed (some "abc")⟩)).2.1 rfl,
   ((((dispatch_and_returned_id (some "abc") (JVal.str "c") "tok"
      (fun _ => ⟨200, "", .parsed (some "abc")⟩)).2.2 (by decide)).2
      (some "abc") rfl).1 "abc" rfl)⟩

/-- C7: when the resolved configuration carries no token, the run terminates
with the configuration error right after settings/environment resolution: the
notes file is never read and no network call is made. -/
theorem missing_token_fails_fast (w : World)
    (h : get_env w.envFile w.osEnv "GITHUB_GIST_TOKEN" = none) :
    mainRun w = ([.readSettings],
      .error (.configError "GITHUB_GIST_TOKEN is not set in .env or environment")) ∧
    Effect.readNotes ∉ (mainRun w).1 ∧ ∀ c, Effect.netCall c ∉ (mainRun w).1 := by
  have hm : mainRun w = ([.readSettings],
      .error (.configError "GITHUB_GIST_TOKEN is not set in .env or environment")) := by
    simp only [mainRun]
    rw [h]
  refine ⟨hm, ?_, fun c => ?_⟩
  · rw [hm]
    simp
  · rw [hm]
    simp

/-- Witness for C7: an empty settings file and empty environment. -/
theorem missing_token_fails_fast_witness :
    get_env none [] "GITHUB_GIST_TOKEN" = none ∧
    mainRun ⟨none, [], none, ⟨2025, 6, 1⟩, "ts", fun _ => ⟨200, "", .parsed none⟩⟩ =
      ([.readSettings], .error (.configError
        "GITHUB_GIST_TOKEN is not set in .env or environment")) ∧
    Effect.readNotes ∉ (mainRun ⟨none, [], none, ⟨2025, 6, 1⟩, "ts",
      fun _ => ⟨200, "", .parsed none⟩⟩).1 :=
  ⟨rfl,
   (missing_token_fails_fast ⟨none, [], none, ⟨2025, 6, 1⟩, "ts",
     fun _ => ⟨200, "", .parsed none⟩⟩ rfl).1,
   (missing_token_fails_fast ⟨none, [], none, ⟨2025, 6, 1⟩, "ts",
     fun _ => ⟨200, "", .parsed none⟩⟩ rfl).2.1⟩

theorem foldl_dinsert_not_mem :
    ∀ (l : List (String × String)) (d : String → Option String) (k : String),
      k ∉ l.map Prod.fst →
      (l.foldl (fun d kv => dinsert d kv.1 kv.2) d) k = d k := by
  intro l
  induction l with
  | nil => intro d k _; rfl
  | cons kv rest ih =>
    intro d k hk
    rw [List.foldl_cons]
    have h1 : k ≠ kv.1 := fun he => hk (by simp [he])
    have h2 : k ∉ rest.map Prod.fst := fun hm => hk (by simp [hm])
    rw [ih _ k h2]
    simp [dinsert, h1]

theorem foldl_dinsert_mem :
    ∀ (l : List (String × String)) (d : String → Option String) (k v : String),
      (l.map Prod.fst).Nodup → (k, v) ∈ l →
      (l.foldl (fun d kv => dinsert d kv.1 kv.2) d) k = some v := by
  intro l
  induction l with
  | nil => intro d k v _ hmem; cases hmem
  | cons kv rest ih =>
    intro d k v hnd hmem
    rw [List.foldl_cons]
    rcases List.mem_cons.mp hmem with he | hm
    · have h1 : kv.1 = k := by rw [← he]
      have h2 : kv.2 = v := by rw [← he]
      have hk : k ∉ rest.map Prod.fst := by
        rw [← h1]
        exact (List.nodup_cons.mp (by simpa using hnd)).1
      rw [foldl_dinsert_not_mem rest _ k hk]
      simp [dinsert, h1, h2]
    · exact ih _ k v (List.nodup_cons.mp (by simpa using hnd)).2 hm

/-- C8: a key present in the process environment resolves to the
environment's value whatever the settings file says; a key absent from the
environment keeps the settings file's value; a missing settings file gives
the empty base mapping; values in the settings file are stripped of
surrounding whitespace and quotes. -/
theorem env_overlay_resolution :
    (∀ (file : Option (List String)) (osEnv : List (String × String)) (k v : String),
      (osEnv.map Prod.fst).Nodup → (k, v) ∈ osEnv → get_env file osEnv k = some v) ∧
    (∀ (file : Option (List String)) (osEnv : List (String × String)) (k : String),
      k ∉ osEnv.map Prod.fst → get_env file osEnv k = load_env file k) ∧
    (∀ k, load_env none k = none) ∧
    parseEnvLine "GITHUB_GIST_TOKEN=\"abc\"" = some ("GITHUB_GIST_TOKEN", "abc") ∧
    load_env (some ["REVIEW_GIST_ID = \"xyz\" "]) "REVIEW_GIST_ID" = some "xyz" := by
  refine ⟨?_, ?_, fun _ => rfl, by decide, by decide⟩
  · intro file osEnv k v hnd hmem
    exact foldl_dinsert_mem osEnv (load_env file) k v hnd hmem
  · intro file osEnv k hk
    exact foldl_dinsert_not_mem osEnv (load_env file) k hk

/-- Witness for C8: the environment overrides the file for key A; key B is
untouched by the environment. -/
theorem env_overlay_resolution_witness :
    (([("A", "env")].map Prod.fst).Nodup ∧ ("A", "env") ∈ [("A", "env")] ∧
      get_env (some ["A=file", "B=fileonly"]) [("A", "env")] "A" = some "env") ∧
    ("B" ∉ [("A", "env")].map Prod.fst ∧
      get_env (some ["A=file", "B=fileonly"]) [("A", "env")] "B" =
        load_env (some ["A=file", "B=fileonly"]) "B") :=
  ⟨⟨by decide, by decide,
    env_overlay_resolution.1 (some ["A=file", "B=fileonly"]) [("A", "env")] "A" "env"
      (by decide) (by decide)⟩,
   by decide,
   env_overlay_resolution.2.1 (some ["A=file", "B=fileonly"]) [("A", "env")] "B"
     (by decide)⟩

/-- C10: an empty REVIEW_GIST_ID resolves exactly like an absent one — the
resolved id is none, the publisher behaves identically, the create path is
taken, a whole run is indistinguishable from one without the key, and on a
successful create the newly assigned id of the response is the printed
result. -/
theorem empty_gist_id_like_unset :
    (resolveGistId (some "") = none ∧ resolveGistId none = none) ∧
    (∀ (tok : String) (content : JVal) (net : GistCall → HttpResponse),
      ensure_gist tok (resolveGistId (some "")) content net =
        ensure_gist tok none content net ∧
      gistCallOf (resolveGistId (some "")) content = .create content) ∧
    (∀ w1 w2 : World,
      get_env w1.envFile w1.osEnv "REVIEW_GIST_ID" = some "" →
      get_env w2.envFile w2.osEnv "REVIEW_GIST_ID" = none →
      get_env w1.envFile w1.osEnv "GITHUB_GIST_TOKEN" =
        get_env w2.envFile w2.osEnv "GITHUB_GIST_TOKEN" →
      w1.reviewFile = w2.reviewFile → w1.today = w2.today →
      w1.generatedAt = w2.generatedAt → w1.net = w2.net →
      mainRun w1 = mainRun w2) ∧
    (∀ (w : World) (tok j : String) (lines : List String),
      get_env w.envFile w.osEnv "GITHUB_GIST_TOKEN" = some tok → tok ≠ "" →
      get_env w.envFile w.osEnv "REVIEW_GIST_ID" = some "" →
      w.reviewFile = some lines →
      ¬(400 ≤ (w.net (.create (classify_tasks w.today w.generatedAt
          (parse_lines lines)))).status ∧
        (w.net (.create (classify_tasks w.today w.generatedAt
          (parse_lines lines)))).status < 600) →
      (w.net (.create (classify_tasks w.today w.generatedAt
          (parse_lines lines)))).json = .parsed (some j) →
      mainRun w = ([.readSettings, .readNotes,
        .netCall (.create (classify_tasks w.today w.generatedAt (parse_lines lines)))],
        .ok j)) := by
  refine ⟨⟨rfl, rfl⟩, fun tok content net => ⟨rfl, rfl⟩, ?_, ?_⟩
  · intro w1 w2 h1 h2 htok hrf htoday hgen hnet
    simp only [mainRun]
    rw [htok, h1, h2, hrf, htoday, hgen, hnet]
    rfl
  · intro w tok j lines htok htokne hgid hrf hstat hjson
    simp only [mainRun]
    rw [htok, hgid, hrf]
    simp only [parse_tasks_from_file, resolveGistId, ensure_gist, gistCallOf,
      raise_for_status, htokne, hstat, hjson, if_neg, ite_true, ite_false,
      if_false, reduceIte]

/-- Witness for C10: a run with `REVIEW_GIST_ID=` set empty equals a run
without the key, takes the create path and prints the id the response
assigns. -/
theorem empty_gist_id_like_unset_witness :
    mainRun ⟨none, [("GITHUB_GIST_TOKEN", "t"), ("REVIEW_GIST_ID", "")],
        some ["- [ ] x 📅 2025-06-01"], ⟨2025, 6, 1⟩, "ts",
        fun _ => ⟨201, "", .parsed (some "newid")⟩⟩ =
      mainRun ⟨none, [("GITHUB_GIST_TOKEN", "t")],
        some ["- [ ] x 📅 2025-06-01"], ⟨2025, 6, 1⟩, "ts",
        fun _ => ⟨201, "", .parsed (some "newid")⟩⟩ ∧
    mainRun ⟨none, [("GITHUB_GIST_TOKEN", "t"), ("REVIEW_GIST_ID", "")],
        some ["- [ ] x 📅 2025-06-01"], ⟨2025, 6, 1⟩, "ts",
        fun _ => ⟨201, "", .parsed (some "newid")⟩⟩ =
      ([.readSettings, .readNotes,
        .netCall (.create (classify_tasks ⟨2025, 6, 1⟩ "ts"
          (parse_lines ["- [ ] x 📅 2025-06-01"])))],
       .ok "newid") :=
  ⟨empty_gist_id_like_unset.2.2.1
      ⟨none, [("GITHUB_GIST_TOKEN", "t"), ("REVIEW_GIST_ID", "")],
        some ["- [ ] x 📅 2025-06-01"], ⟨2025, 6, 1⟩, "ts",
        fun _ => ⟨201, "", .parsed (some "newid")⟩⟩
      ⟨none, [("GITHUB_GIST_TOKEN", "t")],
        some ["- [ ] x 📅 2025-06-01"], ⟨2025, 6, 1⟩, "ts",
        fun _ => ⟨201, "", .parsed (some "newid")⟩⟩
      rfl rfl rfl rfl rfl rfl rfl,
   empty_gist_id_like_unset.2.2.2
      ⟨none, [("GITHUB_GIST_TOKEN", "t"), ("REVIEW_GIST_ID", "")],
        some ["- [ ] x 📅 2025-06-01"], ⟨2025, 6, 1⟩, "ts",
        fun _ => ⟨201, "", .parsed (some "newid")⟩⟩
      "t" "newid" ["- [ ] x 📅 2025-06-01"]
      rfl (by decide) rfl rfl (by decide) rfl⟩
